import Mathlib

/-!
Shallow embedding of the WebSocket connection-manager core of the chat
backend (src/backend/app): the MongoDB-backed repository and message
stores (models.py, github_model.py) and the per-client request handlers
of ConnectionManager (ws_manager.py).  External collaborators (MongoDB,
the GitHub host, the AI agent) are modelled as explicit oracles passed
to each handler; each handler is a pure function from the current state
and its payload to the ordered list of outbound events it emits and the
updated state.  The model follows a single client (the client identifier
is a parameter; persisted records keep their client_id field, as the
store is shared across clients).
-/

namespace ChatApp

/-- A JSON-object payload fragment: an ordered association list of
string keys to string values, mirroring the Python dicts the code sends
over the socket.  Numeric values such as timestamps appear stringified;
only the key structure matters for the claims. -/
abbrev Dict := List (String × String)

/-- Removal of a key, as dict.pop(k, None): drops every binding of k
(the dicts built by the code never bind a key twice). -/
def dictPop (d : Dict) (k : String) : Dict :=
  d.filter (fun kv => kv.1 != k)

/-- Lookup d[k] with default value the empty string. -/
def dictGet (d : Dict) (k : String) : String :=
  ((d.find? (fun kv => kv.1 == k)).map (fun kv => kv.2)).getD ""

/-- Python truthiness test for an optional string payload field:
payload.get(k) is falsy when the key is absent or the value is the
empty string. -/
def falsyStr : Option String → Bool
  | none => true
  | some s => s == ""

/-- A persisted repository record, as built by
GitHubModel.add_repository (github_model.py lines 23 to 34). -/
structure Repo where
  id : String
  name : String
  url : String
  host : String
  owner : String
  repo : String
  branch : String
  token : String
  client_id : String
  created_at : Nat
deriving Repr, DecidableEq

/-- An inbound repository descriptor, the repo_data dict of a payload:
id, branch and host are optional keys with defaults applied by
add_repository; name, url, owner, repo and token are required keys. -/
structure RepoData where
  id? : Option String
  name : String
  url : String
  owner : String
  repo : String
  branch? : Option String
  host? : Option String
  token : String
deriving Repr, DecidableEq

/-- The record add_repository builds from a descriptor
(github_model.py lines 23 to 34): a fresh uuid when no id is given, and
defaults github.com for host and main for branch.  freshId is the
uuid4 oracle value, now the millisecond timestamp oracle value. -/
def mkRepo (client_id : String) (freshId : String) (now : Nat) (d : RepoData) : Repo :=
  { id := d.id?.getD freshId
    name := d.name
    url := d.url
    host := d.host?.getD "github.com"
    owner := d.owner
    repo := d.repo
    branch := d.branch?.getD "main"
    token := d.token
    client_id := client_id
    created_at := now }

/-- The stored record rendered as the Python dict that MongoDB holds
(every field, the credential token included). -/
def Repo.toDict (r : Repo) : Dict :=
  [("id", r.id), ("name", r.name), ("url", r.url), ("host", r.host),
   ("owner", r.owner), ("repo", r.repo), ("branch", r.branch),
   ("token", r.token), ("client_id", r.client_id),
   ("created_at", toString r.created_at)]

/-- The upsert filter of add_repository: the natural key is
(client_id, name) (github_model.py line 39). -/
def repoKeyMatch (client_id name : String) (r : Repo) : Bool :=
  r.client_id == client_id && r.name == name

/-- update_one with upsert on the repositories collection: replace the
first record matching the (client_id, name) key, or append when none
matches.  The unique Mongo index on (client_id, name) guarantees at
most one match exists. -/
def upsertRepo : List Repo → Repo → List Repo
  | [], r => [r]
  | x :: xs, r =>
    if repoKeyMatch r.client_id r.name x then r :: xs
    else x :: upsertRepo xs r

/-- delete_one: remove the first record satisfying the predicate. -/
def eraseFirstP (p : Repo → Bool) : List Repo → List Repo
  | [] => []
  | x :: xs => if p x then xs else x :: eraseFirstP p xs

namespace GitHubModel

/-- GitHubModel.add_repository (github_model.py lines 19 to 53): build
the record, upsert it on (client_id, name), and return the record as a
dict with the token (and Mongo _id, absent from this model) popped. -/
def add_repository (store : List Repo) (client_id : String)
    (freshId : String) (now : Nat) (d : RepoData) : Dict × List Repo :=
  let repo := mkRepo client_id freshId now d
  (dictPop repo.toDict "token", upsertRepo store repo)

/-- GitHubModel.get_repositories (github_model.py lines 55 to 68): all
records of the client, each with _id and token popped. -/
def get_repositories (store : List Repo) (client_id : String) : List Dict :=
  (store.filter (fun r => r.client_id == client_id)).map
    (fun r => dictPop r.toDict "token")

/-- GitHubModel.get_repository (github_model.py lines 70 to 80):
find_one on (client_id, id); the returned record keeps its token. -/
def get_repository (store : List Repo) (client_id repo_id : String) :
    Option Repo :=
  store.find? (fun r => r.client_id == client_id && r.id == repo_id)

/-- GitHubModel.delete_repository (github_model.py lines 82 to 89):
delete_one on (client_id, id); returns deleted_count bigger than zero
and the remaining store. -/
def delete_repository (store : List Repo) (client_id repo_id : String) :
    Bool × List Repo :=
  (store.any (fun r => r.client_id == client_id && r.id == repo_id),
   eraseFirstP (fun r => r.client_id == client_id && r.id == repo_id) store)

end GitHubModel

/-- A persisted conversation message (models.py lines 59 to 65). -/
structure Msg where
  id : String
  sender : String
  text : String
  timestamp : Nat
  client_id : String
deriving Repr, DecidableEq

/-- The oracle values one MongoDB.add_message call consumes: the uuid4
and timestamp of the record built for insertion, whether insert_one
succeeds, and the second uuid4 and timestamp drawn in the fallback
branch when it does not (models.py lines 69 to 78). -/
structure MsgEnv where
  freshId : String
  now : Nat
  insertOk : Bool
  fallbackId : String
  now2 : Nat
deriving Repr, DecidableEq

/-- The message record an add_message call hands back to its caller:
the inserted record on success, the freshly rebuilt fallback record on
insert failure. -/
def addMessageRecord (env : MsgEnv) (client_id sender text : String) : Msg :=
  if env.insertOk then
    { id := env.freshId, sender := sender, text := text
      timestamp := env.now, client_id := client_id }
  else
    { id := env.fallbackId, sender := sender, text := text
      timestamp := env.now2, client_id := client_id }

namespace MongoDB

/-- MongoDB.add_message (models.py lines 56 to 78): build the record
and insert it; on any insert failure, swallow the error and return a
fresh record of the same shape without storing anything.  The call
never fails and never emits an event. -/
def add_message (msgs : List Msg) (env : MsgEnv)
    (client_id sender text : String) : Msg × List Msg :=
  if env.insertOk then
    let m : Msg := { id := env.freshId, sender := sender, text := text
                     timestamp := env.now, client_id := client_id }
    (m, msgs ++ [m])
  else
    (addMessageRecord env client_id sender text, msgs)

end MongoDB

/-- A file-tree node as returned by the Repository Integration
(ws_schemas.py FileNode): a file, or a directory with children. -/
inductive FileNode where
  | file (id name path : String)
  | dir (id name path : String) (children : List FileNode)
deriving Repr

/-- An outbound event frame pushed through the transport handle, one
constructor per message type emitted by ws_manager.py.  Repository
payloads are carried as dicts so that the presence or absence of the
token key is observable. -/
inductive Event where
  | agentTyping (isTyping : Bool)
  | newChatMessage (message : Msg)
  | fileTreeData (tree : List FileNode) (repository : Option Dict)
  | fileTreeError (message : String)
  | repositoriesList (repositories : List Dict)
  | repoActionSuccess (repository : Dict) (action : String)
  | repoActionSuccessId (repository_id : String) (action : String)
  | repositoryActionError (message : String)
  | configSuccess
  | configError (message : String)
  | githubFileActionSuccess (files : List String) (repository_id : String)
      (action : String)
  | githubActionError (message : String)
deriving Repr

/-- A call made to an external collaborator, recorded to state claims
about which collaborator steps a handler performs for a descriptor. -/
inductive ExtCall where
  | validate (name : String)
  | upsertRepo (name : String)
deriving Repr, DecidableEq

/-- The SUBMIT_CONFIG payload: the agent credential and the repository
descriptors read by payload.get with default the empty list; the other
keys of the configuration bag are inert for the modelled behaviour. -/
structure ConfigPayload where
  geminiToken : String
  repositories : List RepoData
deriving Repr, DecidableEq

/-- The per-client state a handler sees: the repositories and messages
collections of the MongoDB store, the stored connection configuration,
and the in-memory selected-repository entry of the ConnectionManager
for this client (self.selected_repositories). -/
structure AppState where
  repos : List Repo
  messages : List Msg
  config : Option ConfigPayload
  selected : Option String
deriving Repr, DecidableEq

/-- The sanitized repository metadata handle_fetch_files embeds in the
FILE_TREE_DATA payload (ws_manager.py lines 143 to 151): exactly these
seven keys, the token deliberately absent. -/
def fileTreeRepoDict (r : Repo) : Dict :=
  [("id", r.id), ("name", r.name), ("url", r.url), ("host", r.host),
   ("owner", r.owner), ("repo", r.repo), ("branch", r.branch)]

/-- ConnectionManager.handle_fetch_files (ws_manager.py lines 103 to
166).  The AGENT_TYPING True frame is sent before the payload is even
read; a missing or unknown repository id then yields a FILE_TREE_ERROR
with the typing indicator left on.  On a resolved descriptor the
selection is updated first; fetchTree is the Repository Integration
tree listing, whose exception is caught by the outer try and turned
into a FILE_TREE_ERROR, again with no typing-off frame. -/
def handle_fetch_files (st : AppState) (client_id : String)
    (fetchTree : Repo → Except String (List FileNode))
    (repository_id? : Option String) : List Event × AppState :=
  if falsyStr repository_id? then
    ([.agentTyping true, .fileTreeError "Repository ID is required"], st)
  else
    let rid := repository_id?.getD ""
    match GitHubModel.get_repository st.repos client_id rid with
    | none =>
      ([.agentTyping true, .fileTreeError "Repository not found"], st)
    | some repo =>
      let st1 := { st with selected := some rid }
      match fetchTree repo with
      | .ok tree =>
        ([.agentTyping true,
          .fileTreeData tree (some (fileTreeRepoDict repo)),
          .agentTyping false], st1)
      | .error e =>
        ([.agentTyping true, .fileTreeError e], st1)

/-- ConnectionManager.handle_chat_message (ws_manager.py lines 168 to
237).  Empty text returns without any event.  The user message is
persisted but not echoed, AGENT_TYPING True is emitted, the context is
assembled from the stored configuration and selected repository, and
the Agent Gateway is invoked: ai is its outcome.  On success the agent
reply is persisted, AGENT_TYPING False emitted, then NEW_CHAT_MESSAGE.
On failure the except clause persists and emits a system message
carrying the error text and only then emits AGENT_TYPING False. -/
def handle_chat_message (st : AppState) (client_id : String)
    (envU envA : MsgEnv) (ai : Except String String)
    (text : String) : List Event × AppState :=
  if text == "" then ([], st)
  else
    let (_userMsg, msgs1) :=
      MongoDB.add_message st.messages envU client_id "user" text
    match ai with
    | .ok response =>
      let (agentMsg, msgs2) :=
        MongoDB.add_message msgs1 envA client_id "agent" response
      ([.agentTyping true, .agentTyping false, .newChatMessage agentMsg],
       { st with messages := msgs2 })
    | .error e =>
      let (errorMsg, msgs2) :=
        MongoDB.add_message msgs1 envA client_id "system"
          ("Error processing message: " ++ e)
      ([.agentTyping true, .newChatMessage errorMsg, .agentTyping false],
       { st with messages := msgs2 })

/-- The repository loop of handle_submit_config (ws_manager.py lines 73
to 74): for each descriptor in order, call github_model.add_repository,
which upserts into the Persistence Gateway; no validation call is made
on this path.  The second component records the collaborator calls
performed, the i-th descriptor consuming uuid oracle value ids i. -/
def submitReposLoop (client_id : String) (ids : Nat → String) (now : Nat) :
    List Repo → List RepoData → Nat → List Repo × List ExtCall
  | store, [], _ => (store, [])
  | store, d :: ds, i =>
    let (_resp, store1) :=
      GitHubModel.add_repository store client_id (ids i) now d
    let (store2, calls) := submitReposLoop client_id ids now store1 ds (i + 1)
    (store2, ExtCall.upsertRepo d.name :: calls)

/-- ConnectionManager.handle_submit_config (ws_manager.py lines 61 to
101): store the configuration, configure the Agent Gateway (inert
here), upsert every descriptor of the payload, emit the refreshed
repository list, unconditionally select the first listed repository
and cascade a file-tree fetch for it, then emit CONFIG_SUCCESS.  With
no descriptors in the payload the whole repository block is skipped. -/
def handle_submit_config (st : AppState) (client_id : String)
    (ids : Nat → String) (now : Nat)
    (fetchTree : Repo → Except String (List FileNode))
    (payload : ConfigPayload) : List Event × List ExtCall × AppState :=
  let st0 := { st with config := some payload }
  if payload.repositories.isEmpty then
    ([.configSuccess], [], st0)
  else
    let (repos1, calls) :=
      submitReposLoop client_id ids now st0.repos payload.repositories 0
    let st1 := { st0 with repos := repos1 }
    let repoList := GitHubModel.get_repositories repos1 client_id
    match repoList.head? with
    | none => ([.repositoriesList repoList, .configSuccess], calls, st1)
    | some first =>
      let fid := dictGet first "id"
      let st2 := { st1 with selected := some fid }
      match GitHubModel.get_repository st2.repos client_id fid with
      | none =>
        ([.repositoriesList repoList, .configSuccess], calls, st2)
      | some _ =>
        let (fevs, st3) := handle_fetch_files st2 client_id fetchTree (some fid)
        (.repositoriesList repoList :: fevs ++ [.configSuccess], calls, st3)

/-- ConnectionManager.handle_add_repository (ws_manager.py lines 239 to
290): a missing descriptor errors; otherwise the descriptor is checked
through GitHubService.validate_repository and rejected on failure,
else upserted via add_repository; the success event carries the
credential-free record, followed by the refreshed list; when no
repository was selected for the client, the new record is selected and
a file-tree fetch cascades. -/
def handle_add_repository (st : AppState) (client_id : String)
    (validate : RepoData → Bool) (freshId : String) (now : Nat)
    (fetchTree : Repo → Except String (List FileNode))
    (repository? : Option RepoData) :
    List Event × List ExtCall × AppState :=
  match repository? with
  | none =>
    ([.repositoryActionError "Repository data is required"], [], st)
  | some d =>
    if validate d then
      let (repoDict, repos1) :=
        GitHubModel.add_repository st.repos client_id freshId now d
      let st1 := { st with repos := repos1 }
      let evs := [Event.repoActionSuccess repoDict "add",
                  Event.repositoriesList
                    (GitHubModel.get_repositories repos1 client_id)]
      if falsyStr st1.selected then
        let rid := dictGet repoDict "id"
        let st2 := { st1 with selected := some rid }
        let (fevs, st3) := handle_fetch_files st2 client_id fetchTree (some rid)
        (evs ++ fevs, [.validate d.name, .upsertRepo d.name], st3)
      else
        (evs, [.validate d.name, .upsertRepo d.name], st1)
    else
      ([.repositoryActionError
          "Invalid repository or unable to access with provided token"],
       [.validate d.name], st)

/-- ConnectionManager.handle_update_repository (ws_manager.py lines 292
to 342): requires the target id and the descriptor; validates the
descriptor, forces its id to the target id, upserts it through
add_repository (keyed on name), emits the success event and refreshed
list, and refreshes the file tree when the target was the selected
repository. -/
def handle_update_repository (st : AppState) (client_id : String)
    (validate : RepoData → Bool) (freshId : String) (now : Nat)
    (fetchTree : Repo → Except String (List FileNode))
    (repository_id? : Option String) (repository? : Option RepoData) :
    List Event × AppState :=
  match repository? with
  | none =>
    ([.repositoryActionError "Repository ID and data are required"], st)
  | some d0 =>
    if falsyStr repository_id? then
      ([.repositoryActionError "Repository ID and data are required"], st)
    else
      let rid := repository_id?.getD ""
      if validate d0 then
        let d := { d0 with id? := some rid }
        let (repoDict, repos1) :=
          GitHubModel.add_repository st.repos client_id freshId now d
        let st1 := { st with repos := repos1 }
        let evs := [Event.repoActionSuccess repoDict "update",
                    Event.repositoriesList
                      (GitHubModel.get_repositories repos1 client_id)]
        if st1.selected = some rid then
          let (fevs, st2) :=
            handle_fetch_files st1 client_id fetchTree (some rid)
          (evs ++ fevs, st2)
        else (evs, st1)
      else
        ([.repositoryActionError
            "Invalid repository or unable to access with provided token"], st)

/-- ConnectionManager.handle_delete_repository (ws_manager.py lines 344
to 399): requires the id; a delete matching no record errors; else the
success event and refreshed list are emitted, and if the deleted record
was selected, the first remaining repository is selected with a
cascaded fetch, or the selection is cleared and an empty FILE_TREE_DATA
with a null repository emitted when none remain. -/
def handle_delete_repository (st : AppState) (client_id : String)
    (fetchTree : Repo → Except String (List FileNode))
    (repository_id? : Option String) : List Event × AppState :=
  if falsyStr repository_id? then
    ([.repositoryActionError "Repository ID is required"], st)
  else
    let rid := repository_id?.getD ""
    let (success, repos1) :=
      GitHubModel.delete_repository st.repos client_id rid
    if !success then
      ([.repositoryActionError "Failed to delete repository"], st)
    else
      let st1 := { st with repos := repos1 }
      let repoList := GitHubModel.get_repositories repos1 client_id
      let evs := [Event.repoActionSuccessId rid "delete",
                  Event.repositoriesList repoList]
      if st1.selected = some rid then
        match repoList.head? with
        | some first =>
          let fid := dictGet first "id"
          let st2 := { st1 with selected := some fid }
          let (fevs, st3) :=
            handle_fetch_files st2 client_id fetchTree (some fid)
          (evs ++ fevs, st3)
        | none =>
          (evs ++ [.fileTreeData [] none], { st1 with selected := none })
      else (evs, st1)

/-- The AttributeError raised at ws_manager.py line 414: the handler
reads db.get_repository, but the MongoDB class of models.py (lines 12
to 95) defines no get_repository method, so the attribute lookup raises
inside the try before any repository check or selection update can
happen, and the except clause emits a REPOSITORY_ACTION_ERROR with the
error text. -/
def selectRepositoryAttributeError : String :=
  "MongoDB object has no attribute get_repository"

/-- ConnectionManager.handle_select_repository (ws_manager.py lines 401
to 440): a missing id errors; on any present id the db.get_repository
attribute lookup raises (see selectRepositoryAttributeError), so the
handler always answers with a REPOSITORY_ACTION_ERROR and leaves the
state untouched. -/
def handle_select_repository (st : AppState) (_client_id : String)
    (repository_id? : Option String) : List Event × AppState :=
  if falsyStr repository_id? then
    ([.repositoryActionError "Repository ID is required"], st)
  else
    ([.repositoryActionError selectRepositoryAttributeError], st)

/-- A commit on the repository host: its message and the full path to
content mapping of its tree. -/
structure Commit where
  message : String
  tree : List (String × String)
deriving Repr, DecidableEq

/-- The observable state of the target branch on the repository host:
the commit its head points at.  Blob, tree and commit objects created
during a push are content addressed and unreachable until the branch
reference moves, so the head is the only observable. -/
structure GitHost where
  head : Commit
deriving Repr, DecidableEq

/-- Store one path to content binding in a tree, replacing the
existing binding of the path or appending a new one (git tree entries
are keyed by path, so a tree binds each path at most once). -/
def setPath : List (String × String) → String → String →
    List (String × String)
  | [], p, c => [(p, c)]
  | e :: es, p, c =>
    if e.1 == p then (p, c) :: es else e :: setPath es p c

/-- Apply a list of file writes to a tree, in order. -/
def overlay (t : List (String × String)) :
    List (String × String) → List (String × String)
  | [] => t
  | (p, c) :: fs => overlay (setPath t p c) fs

/-- The content stored at a path of a tree. -/
def lookupPath (t : List (String × String)) (p : String) : Option String :=
  (t.find? (fun e => e.1 == p)).map (fun e => e.2)

/-- GitHubModel.push_files (github_model.py lines 514 to 585) against
the host model: read the branch head, create one blob per file, one
tree over the base tree containing every requested file, one commit,
then move the branch reference to it.  stepsOk gives the outcome of
each successive host call: 0 the branch read, 1 + i the blob of file i,
then tree creation, parent commit read, commit creation, and the
reference update.  The first failing call raises, and the branch
reference has then not moved.  Only the reference update changes the
observable head, and the tree it installs is built from the complete
file list. -/
def push_files_host (host : GitHost) (stepsOk : Nat → Bool)
    (files : List (String × String)) (commit_message : String) :
    Except String GitHost :=
  let n := files.length
  if !stepsOk 0 then .error "get_branch failed"
  else if (List.range n).any (fun i => !stepsOk (1 + i)) then
    .error "create_git_blob failed"
  else if !stepsOk (1 + n) then .error "create_git_tree failed"
  else if !stepsOk (2 + n) then .error "get_git_commit failed"
  else if !stepsOk (3 + n) then .error "create_git_commit failed"
  else if !stepsOk (4 + n) then .error "ref edit failed"
  else .ok { head := { message := commit_message,
                       tree := overlay host.head.tree files } }

/-- Python truthiness of the files payload list: absent or empty. -/
def falsyList : Option (List (String × String)) → Bool
  | none => true
  | some l => l.isEmpty

/-- ConnectionManager.handle_push_files (ws_manager.py lines 646 to
689): a missing id, file list or commit message errors; an unknown
repository id raises inside push_files and errors; otherwise the file
list is handed to push_files and a single GITHUB_FILE_ACTION_SUCCESS
or GITHUB_ACTION_ERROR frame reports the outcome.  The optional branch
argument only chooses which branch head the host model denotes. -/
def handle_push_files (st : AppState) (host : GitHost) (client_id : String)
    (stepsOk : Nat → Bool) (repository_id? : Option String)
    (files? : Option (List (String × String)))
    (commit_message? : Option String) : List Event × GitHost :=
  if falsyStr repository_id? || falsyList files? ||
      falsyStr commit_message? then
    ([.githubActionError
        "Repository ID, files, and commit message are required"], host)
  else
    let rid := repository_id?.getD ""
    let files := files?.getD []
    match GitHubModel.get_repository st.repos client_id rid with
    | none => ([.githubActionError "Repository not found"], host)
    | some _ =>
      match push_files_host host stepsOk files (commit_message?.getD "") with
      | .ok host1 =>
        ([.githubFileActionSuccess (files.map (fun f => f.1)) rid
            "push_multiple"], host1)
      | .error e => ([.githubActionError e], host)

/-- The oracle bundle one dispatched request consumes. -/
structure Oracles where
  validate : RepoData → Bool
  freshIds : Nat → String
  now : Nat
  fetchTree : Repo → Except String (List FileNode)
  envU : MsgEnv
  envA : MsgEnv
  ai : Except String String

/-- An inbound frame for the repository and chat handlers the claims
quantify over. -/
inductive Req where
  | submitConfig (payload : ConfigPayload)
  | addRepo (repository? : Option RepoData)
  | updateRepo (repository_id? : Option String) (repository? : Option RepoData)
  | deleteRepo (repository_id? : Option String)
  | selectRepo (repository_id? : Option String)
  | fetchFiles (repository_id? : Option String)
  | chat (text : String)

/-- Dispatch of one inbound frame to its handler, as the message loop
of ws_endpoint.py does, discarding the collaborator-call trace. -/
def step (client_id : String) (o : Oracles) (st : AppState) :
    Req → List Event × AppState
  | .submitConfig payload =>
    let r := handle_submit_config st client_id o.freshIds o.now
      o.fetchTree payload
    (r.1, r.2.2)
  | .addRepo repository? =>
    let r := handle_add_repository st client_id o.validate (o.freshIds 0)
      o.now o.fetchTree repository?
    (r.1, r.2.2)
  | .updateRepo rid? repository? =>
    handle_update_repository st client_id o.validate (o.freshIds 0) o.now
      o.fetchTree rid? repository?
  | .deleteRepo rid? => handle_delete_repository st client_id o.fetchTree rid?
  | .selectRepo rid? => handle_select_repository st client_id rid?
  | .fetchFiles rid? => handle_fetch_files st client_id o.fetchTree rid?
  | .chat text => handle_chat_message st client_id o.envU o.envA o.ai text

/-- A whole session: the frames processed one at a time in arrival
order, their emitted events concatenated. -/
def runSeq (client_id : String) (st : AppState) :
    List (Oracles × Req) → List Event × AppState
  | [] => ([], st)
  | (o, req) :: rest =>
    let (evs, st1) := step client_id o st req
    let (evs2, st2) := runSeq client_id st1 rest
    (evs ++ evs2, st2)

/-- The selection invariant of the spec: the selected-repository
reference of the session is empty or names a repository record that
currently exists for the client. -/
def selInv (client_id : String) (st : AppState) : Bool :=
  match st.selected with
  | none => true
  | some s => st.repos.any (fun r => r.client_id == client_id && r.id == s)

/-- A dict payload free of the credential key. -/
def dictTokenFree (d : Dict) : Bool :=
  d.all (fun kv => kv.1 != "token")

/-- An outbound event whose repository payloads all lack the token key.
Events carrying no repository dict hold trivially: a chat message or an
error string has no credential field. -/
def eventTokenFree : Event → Bool
  | .repositoriesList rs => rs.all dictTokenFree
  | .repoActionSuccess r _ => dictTokenFree r
  | .fileTreeData _ (some r) => dictTokenFree r
  | _ => true

/-- The event order the claim states for a non-empty chat message:
typing on, exactly one new chat message, typing off. -/
def chatOrderClaim (evs : List Event) : Bool :=
  match evs with
  | [.agentTyping true, .newChatMessage _, .agentTyping false] => true
  | _ => false

/-- The id of the first repository of a client in persisted order. -/
def firstRepoId (store : List Repo) (client_id : String) : Option String :=
  ((store.filter (fun r => r.client_id == client_id)).head?).map
    (fun r => r.id)

/-! Concrete fixtures used by the closed theorems. -/

/-- A stored repository record of client c. -/
def repoA : Repo :=
  { id := "id1", name := "A", url := "u", host := "github.com",
    owner := "o", repo := "r", branch := "main", token := "tok",
    client_id := "c", created_at := 0 }

/-- A second stored record of the same client. -/
def repoB : Repo := { repoA with id := "id2", name := "B" }

/-- An inbound descriptor named A carrying no id of its own. -/
def dataA : RepoData :=
  { id? := none, name := "A", url := "u", owner := "o", repo := "r",
    branch? := none, host? := none, token := "tok" }

/-- A message oracle whose insert succeeds. -/
def env0 : MsgEnv :=
  { freshId := "m1", now := 5, insertOk := true, fallbackId := "m2",
    now2 := 6 }

/-- A message oracle whose insert fails. -/
def envFail : MsgEnv := { env0 with insertOk := false }

/-- A Repository Integration stub returning an empty tree. -/
def noTree : Repo → Except String (List FileNode) := fun _ => Except.ok []

/-- The empty per-client state. -/
def st0 : AppState :=
  { repos := [], messages := [], config := none, selected := none }

/-- A state holding one repository, which is selected. -/
def stA : AppState := { st0 with repos := [repoA], selected := some "id1" }

/-- A state holding two repositories, the second one selected. -/
def stAB : AppState :=
  { st0 with repos := [repoA, repoB], selected := some "id2" }

/-- A configuration payload carrying one descriptor named C. -/
def payC : ConfigPayload :=
  ConfigPayload.mk "g" [{ dataA with name := "C" }]

/-- A concrete oracle bundle: validation succeeds, uuids are drawn in
sequence, the tree listing returns an empty tree and the agent
replies. -/
def oracle0 : Oracles :=
  { validate := fun _ => true, freshIds := fun n => "i" ++ toString n,
    now := 7, fetchTree := noTree, envU := env0, envA := env0,
    ai := Except.ok "resp" }

/-! Shared lemmas about the store operations and handlers. -/

/-- The record returned by add_message always matches addMessageRecord,
whether or not the insert succeeded. -/
lemma add_message_fst (msgs : List Msg) (env : MsgEnv)
    (c s t : String) :
    (MongoDB.add_message msgs env c s t).1 = addMessageRecord env c s t := by
  by_cases h : env.insertOk <;>
    simp [MongoDB.add_message, addMessageRecord, h]

/-- A failed insert leaves the messages collection untouched. -/
lemma add_message_snd_of_fail (msgs : List Msg) (env : MsgEnv)
    (c s t : String) (h : env.insertOk = false) :
    (MongoDB.add_message msgs env c s t).2 = msgs := by
  simp [MongoDB.add_message, h]

/-- The id field of the sanitized record dict is the stored id. -/
lemma dictGet_pop_id (r : Repo) :
    dictGet (dictPop r.toDict "token") "id" = r.id := rfl

/-! Claim C1: ordering of frames for a non-empty chat message. -/

/-- C1 is false as stated: on the success path of a non-empty chat
message the handler emits typing-on, then typing-off, and only then the
NEW_CHAT_MESSAGE, so the claimed order typing-on, message, typing-off
fails even though the agent call succeeded. -/
theorem C1_counterexample :
    chatOrderClaim
        (handle_chat_message stA "c" env0 env0 (Except.ok "resp") "hi").1
      = false ∧
    (handle_chat_message stA "c" env0 env0 (Except.ok "resp") "hi").1 =
      [Event.agentTyping true, Event.agentTyping false,
       Event.newChatMessage
         { id := "m1", sender := "agent", text := "resp",
           timestamp := 5, client_id := "c" }] :=
  ⟨rfl, rfl⟩

/-- C1 amended: a non-empty chat message always yields exactly one
NEW_CHAT_MESSAGE and a leading typing-on, but the order differs per
path: on agent success the trace is typing-on, typing-off, then the
agent-authored message; on agent failure it is typing-on, then the
system-authored error message, then typing-off. -/
theorem C1_amended_chat_order (st : AppState) (c text : String)
    (envU envA : MsgEnv) (h : text ≠ "") :
    (∀ r, (handle_chat_message st c envU envA (Except.ok r) text).1 =
      [Event.agentTyping true, Event.agentTyping false,
       Event.newChatMessage (addMessageRecord envA c "agent" r)]) ∧
    (∀ e, (handle_chat_message st c envU envA (Except.error e) text).1 =
      [Event.agentTyping true,
       Event.newChatMessage (addMessageRecord envA c "system"
         ("Error processing message: " ++ e)),
       Event.agentTyping false]) := by
  have ht : (text == "") = false := by
    simpa using h
  constructor
  · intro r
    simp [handle_chat_message, ht, add_message_fst]
  · intro e
    simp [handle_chat_message, ht, add_message_fst]

/-- Instantiation of the amended C1 theorem on the failure path. -/
theorem C1_amended_chat_order_witness :
    (handle_chat_message stA "c" env0 env0 (Except.error "boom") "hi").1 =
      [Event.agentTyping true,
       Event.newChatMessage (addMessageRecord env0 "c" "system"
         ("Error processing message: " ++ "boom")),
       Event.agentTyping false] :=
  (C1_amended_chat_order stA "c" "hi" env0 env0 (by decide)).2 "boom"

/-! Claim C2: select-repository on an existing identifier. -/

/-- C2 names a feature the code cannot perform: for any non-empty
repository identifier, selection included ones that exist, the handler
answers with a single REPOSITORY_ACTION_ERROR and leaves the session
state untouched, because the db.get_repository attribute read raises
before anything else can happen. -/
theorem C2_select_always_errors (st : AppState) (c rid : String)
    (h : rid ≠ "") :
    handle_select_repository st c (some rid) =
      ([Event.repositoryActionError selectRepositoryAttributeError], st) := by
  simp [handle_select_repository, falsyStr, h]

/-- Instantiation of C2_select_always_errors at a state in which the
requested repository does exist for the client. -/
theorem C2_select_always_errors_witness :
    GitHubModel.get_repository stA.repos "c" "id1" = some repoA ∧
    handle_select_repository stA "c" (some "id1") =
      ([Event.repositoryActionError selectRepositoryAttributeError], stA) :=
  ⟨by decide, C2_select_always_errors stA "c" "id1" (by decide)⟩

/-! Claim C3: validation during configuration submission. -/

/-- The collaborator calls of the submit-configuration repository loop
are exactly one upsert per descriptor, in order. -/
lemma submitReposLoop_calls (c : String) (ids : Nat → String) (now : Nat) :
    ∀ (ds : List RepoData) (store : List Repo) (i : Nat),
    (submitReposLoop c ids now store ds i).2 =
      ds.map (fun d => ExtCall.upsertRepo d.name) := by
  intro ds
  induction ds with
  | nil => intro store i; rfl
  | cons d ds ih => intro store i; simp [submitReposLoop, ih]

/-- C3 is false as stated: a configuration submission carrying the
descriptor named A performs no validation call for it at all, so the
descriptor cannot have been validated before its upsert. -/
theorem C3_counterexample :
    ExtCall.validate "A" ∉
      (handle_submit_config st0 "c" (fun n => "i" ++ toString n) 7 noTree
        { geminiToken := "g", repositories := [dataA] }).2.1 := by
  decide

/-- C3 amended: configuration submission upserts every included
descriptor directly into the Persistence Gateway; its collaborator
call trace is exactly one upsert per descriptor, with no Repository
Integration validation call (validation happens only in the standalone
add and update repository handlers). -/
theorem C3_amended_no_validation (st : AppState) (c : String)
    (ids : Nat → String) (now : Nat)
    (fetchTree : Repo → Except String (List FileNode))
    (payload : ConfigPayload) :
    (handle_submit_config st c ids now fetchTree payload).2.1 =
      payload.repositories.map (fun d => ExtCall.upsertRepo d.name) := by
  unfold handle_submit_config
  by_cases hemp : payload.repositories.isEmpty
  · have h0 : payload.repositories = [] := by
      simpa [List.isEmpty_iff] using hemp
    simp [hemp, h0]
  · have hcalls := submitReposLoop_calls c ids now payload.repositories
      st.repos 0
    simp only [hemp, Bool.false_eq_true, if_false]
    split
    · simp_all
    · split <;> simp_all

/-! Claim C4: fetch-file-tree event ordering. -/

/-- C4 is false as stated: a fetch-file-tree request lacking the
repository identifier does not emit only a file-tree error; the typing
indicator is turned on first (and never turned off). -/
theorem C4_counterexample :
    (handle_fetch_files stA "c" noTree none).1 =
      [Event.agentTyping true,
       Event.fileTreeError "Repository ID is required"] ∧
    Event.agentTyping true ∈ (handle_fetch_files stA "c" noTree none).1 :=
  ⟨rfl, List.mem_cons_self _ _⟩

/-- C4 amended: the fetch-file-tree handler emits a typing-on frame
first, unconditionally.  A missing or unknown identifier then yields a
file-tree error (with the typing indicator left on and the selection
untouched); a resolved descriptor updates the selection and yields the
tree with credential-free repository metadata followed by typing-off,
or a file-tree error without typing-off when the tree listing fails. -/
theorem C4_amended_fetch_behaviour (st : AppState) (c : String)
    (f : Repo → Except String (List FileNode)) :
    (∀ rid?, falsyStr rid? = true →
      handle_fetch_files st c f rid? =
        ([Event.agentTyping true,
          Event.fileTreeError "Repository ID is required"], st)) ∧
    (∀ rid, rid ≠ "" →
      GitHubModel.get_repository st.repos c rid = none →
      handle_fetch_files st c f (some rid) =
        ([Event.agentTyping true,
          Event.fileTreeError "Repository not found"], st)) ∧
    (∀ rid repo tree, rid ≠ "" →
      GitHubModel.get_repository st.repos c rid = some repo →
      f repo = Except.ok tree →
      handle_fetch_files st c f (some rid) =
        ([Event.agentTyping true,
          Event.fileTreeData tree (some (fileTreeRepoDict repo)),
          Event.agentTyping false], { st with selected := some rid })) ∧
    (∀ rid repo e, rid ≠ "" →
      GitHubModel.get_repository st.repos c rid = some repo →
      f repo = Except.error e →
      handle_fetch_files st c f (some rid) =
        ([Event.agentTyping true, Event.fileTreeError e],
         { st with selected := some rid })) := by
  refine ⟨fun rid? h => ?_, fun rid hne hg => ?_,
    fun rid repo tree hne hg hf => ?_, fun rid repo e hne hg hf => ?_⟩
  · simp [handle_fetch_files, h]
  · simp [handle_fetch_files, falsyStr, hne, hg]
  · simp [handle_fetch_files, falsyStr, hne, hg, hf]
  · simp [handle_fetch_files, falsyStr, hne, hg, hf]

/-- Instantiation of the amended C4 theorem: the missing-identifier
branch on a concrete state. -/
theorem C4_amended_fetch_behaviour_witness :
    handle_fetch_files stA "c" noTree none =
      ([Event.agentTyping true,
        Event.fileTreeError "Repository ID is required"], stA) :=
  (C4_amended_fetch_behaviour stA "c" noTree).1 none (by decide)

/-! Claim C10: message persistence failures are invisible. -/

/-- C10: add_message is total and swallows insert failures: the record
it hands back always carries the requested sender, text and client
identifier; a failed insert stores nothing; and the chat handler,
running with both of its inserts failing, still emits the same success
trace ending in the agent NEW_CHAT_MESSAGE while the messages
collection stays unchanged. -/
theorem C10_persist_failure_invisible (msgs : List Msg) (env : MsgEnv)
    (c s t : String) (st : AppState) (envU envA : MsgEnv)
    (r text : String) (hu : envU.insertOk = false)
    (ha : envA.insertOk = false) (htext : text ≠ "") :
    ((MongoDB.add_message msgs env c s t).1.sender = s ∧
     (MongoDB.add_message msgs env c s t).1.text = t ∧
     (MongoDB.add_message msgs env c s t).1.client_id = c) ∧
    (env.insertOk = false → (MongoDB.add_message msgs env c s t).2 = msgs) ∧
    ((handle_chat_message st c envU envA (Except.ok r) text).1 =
       [Event.agentTyping true, Event.agentTyping false,
        Event.newChatMessage (addMessageRecord envA c "agent" r)] ∧
     (handle_chat_message st c envU envA (Except.ok r) text).2.messages =
       st.messages) := by
  have ht : (text == "") = false := by simpa using htext
  refine ⟨?_, fun hf => add_message_snd_of_fail msgs env c s t hf, ?_, ?_⟩
  · rw [add_message_fst]
    by_cases h : env.insertOk <;> simp [addMessageRecord, h]
  · simp [handle_chat_message, ht, add_message_fst]
  · simp [handle_chat_message, ht, MongoDB.add_message, hu, ha]

/-! Claim C6: atomicity of the multi-file push. -/

/-- Reading back the path just stored yields the stored content. -/
lemma lookupPath_setPath_self (t : List (String × String))
    (p c : String) :
    lookupPath (setPath t p c) p = some c := by
  induction t with
  | nil => simp [setPath, lookupPath]
  | cons e es ih =>
    by_cases h : e.1 == p
    · simp [setPath, h, lookupPath]
    · simpa [setPath, h, lookupPath] using ih

/-- Storing one path leaves every other path unchanged. -/
lemma lookupPath_setPath_ne (t : List (String × String))
    (p c q : String) (h : q ≠ p) :
    lookupPath (setPath t p c) q = lookupPath t q := by
  have hpq : (p == q) = false := by simpa using Ne.symm h
  induction t with
  | nil => simp [setPath, lookupPath, List.find?, hpq]
  | cons e es ih =>
    by_cases he : e.1 == p
    · have hep : e.1 = p := by simpa using he
      simp [setPath, he, lookupPath, List.find?, hep, hpq]
    · simp only [setPath, he, Bool.false_eq_true, if_false]
      by_cases hq : e.1 == q
      · simp [lookupPath, List.find?, hq]
      · simpa [lookupPath, List.find?, hq] using ih

/-- A path written by none of the files is unchanged by the overlay. -/
lemma lookupPath_overlay_not_mem (fs : List (String × String)) :
    ∀ (t : List (String × String)) (p : String),
    p ∉ fs.map Prod.fst →
    lookupPath (overlay t fs) p = lookupPath t p := by
  induction fs with
  | nil => intro t p _; rfl
  | cons f fs ih =>
    intro t p hp
    simp only [List.map_cons, List.mem_cons] at hp
    push_neg at hp
    obtain ⟨f1, f2⟩ := f
    rw [overlay, ih _ p hp.2, lookupPath_setPath_ne _ _ _ _ hp.1]

/-- With pairwise distinct paths, every file written by the overlay is
present afterwards with its own content. -/
lemma lookupPath_overlay_mem (fs : List (String × String)) :
    ∀ (t : List (String × String)),
    (fs.map Prod.fst).Nodup →
    ∀ pc ∈ fs, lookupPath (overlay t fs) pc.1 = some pc.2 := by
  induction fs with
  | nil => intro t _ pc hpc; cases hpc
  | cons f fs ih =>
    intro t hnd pc hpc
    simp only [List.map_cons, List.nodup_cons] at hnd
    rcases List.mem_cons.mp hpc with rfl | hmem
    · obtain ⟨f1, f2⟩ := pc
      rw [overlay, lookupPath_overlay_not_mem fs _ f1 hnd.1,
        lookupPath_setPath_self]
    · exact ih _ hnd.2 pc hmem

/-- A successful push installs exactly the commit whose tree is the
base tree overlaid with the full file list. -/
lemma push_files_host_ok (host : GitHost) (stepsOk : Nat → Bool)
    (files : List (String × String)) (cm : String) (h1 : GitHost)
    (h : push_files_host host stepsOk files cm = Except.ok h1) :
    h1 = { head := { message := cm,
                     tree := overlay host.head.tree files } } := by
  simp only [push_files_host] at h
  split at h
  · exact absurd h (by simp)
  · split at h
    · exact absurd h (by simp)
    · split at h
      · exact absurd h (by simp)
      · split at h
        · exact absurd h (by simp)
        · split at h
          · exact absurd h (by simp)
          · split at h
            · exact absurd h (by simp)
            · exact (Except.ok.injEq _ _ ▸ h).symm

/-- A failed push leaves the result an error. -/
lemma push_files_host_cases (host : GitHost) (stepsOk : Nat → Bool)
    (files : List (String × String)) (cm : String) :
    (∃ e, push_files_host host stepsOk files cm = Except.error e) ∨
    push_files_host host stepsOk files cm =
      Except.ok { head := { message := cm,
                            tree := overlay host.head.tree files } } := by
  simp only [push_files_host]
  split
  · exact Or.inl ⟨_, rfl⟩
  · split
    · exact Or.inl ⟨_, rfl⟩
    · split
      · exact Or.inl ⟨_, rfl⟩
      · split
        · exact Or.inl ⟨_, rfl⟩
        · split
          · exact Or.inl ⟨_, rfl⟩
          · split
            · exact Or.inl ⟨_, rfl⟩
            · exact Or.inr rfl

/-- C6: a multi-file push with pairwise distinct paths either fails as
a whole, with a single error event and the branch head unchanged, or
emits a single success event and moves the branch head to a commit
whose tree contains every requested file with its requested content;
no partially applied commit is ever observable. -/
theorem C6_push_atomic (st : AppState) (host : GitHost) (c : String)
    (stepsOk : Nat → Bool) (rid? : Option String)
    (files : List (String × String)) (cm? : Option String)
    (hnd : (files.map Prod.fst).Nodup) :
    (∃ msg, handle_push_files st host c stepsOk rid? (some files) cm? =
       ([Event.githubActionError msg], host)) ∨
    (∃ host1, handle_push_files st host c stepsOk rid? (some files) cm? =
       ([Event.githubFileActionSuccess (files.map Prod.fst) (rid?.getD "")
           "push_multiple"], host1) ∧
       ∀ pc ∈ files, lookupPath host1.head.tree pc.1 = some pc.2) := by
  simp only [handle_push_files]
  split
  · exact Or.inl ⟨_, rfl⟩
  · split
    · exact Or.inl ⟨_, rfl⟩
    · rcases push_files_host_cases host stepsOk files (cm?.getD "") with
        ⟨e, he⟩ | hok
      · exact Or.inl ⟨e, by simp only [Option.getD_some]; rw [he]⟩
      · refine Or.inr
          ⟨GitHost.mk (Commit.mk (cm?.getD "") (overlay host.head.tree files)),
           ?_, ?_⟩
        · simp only [Option.getD_some]
          rw [hok]
        · intro pc hpc
          exact lookupPath_overlay_mem files host.head.tree hnd pc hpc

/-- Instantiation of C6 at a concrete two-file push with every host
call succeeding: the success disjunct with both files in the tree. -/
theorem C6_push_atomic_witness :
    (∃ msg, handle_push_files stA
        { head := { message := "", tree := [("x", "0")] } } "c"
        (fun _ => true) (some "id1")
        (some [("a.txt", "x"), ("b.txt", "y")]) (some "cm") =
       ([Event.githubActionError msg],
        { head := { message := "", tree := [("x", "0")] } })) ∨
    (∃ host1, handle_push_files stA
        { head := { message := "", tree := [("x", "0")] } } "c"
        (fun _ => true) (some "id1")
        (some [("a.txt", "x"), ("b.txt", "y")]) (some "cm") =
       ([Event.githubFileActionSuccess
           ([("a.txt", "x"), ("b.txt", "y")].map Prod.fst)
           ((some "id1").getD "") "push_multiple"], host1) ∧
       ∀ pc ∈ [("a.txt", "x"), ("b.txt", "y")],
         lookupPath host1.head.tree pc.1 = some pc.2) :=
  C6_push_atomic stA { head := { message := "", tree := [("x", "0")] } }
    "c" (fun _ => true) (some "id1") [("a.txt", "x"), ("b.txt", "y")]
    (some "cm") (by decide)

/-! Claim C7: upsert semantics of repository persistence. -/

/-- An upsert matching no stored record appends the new record. -/
lemma upsertRepo_append (store : List Repo) (r : Repo)
    (h : ∀ x ∈ store, repoKeyMatch r.client_id r.name x = false) :
    upsertRepo store r = store ++ [r] := by
  induction store with
  | nil => rfl
  | cons x xs ih =>
    have hx := h x (List.mem_cons_self x xs)
    simp [upsertRepo, hx,
      ih (fun y hy => h y (List.mem_cons_of_mem x hy))]

/-- The fetch-files handler never writes the repository store, the
message store or the configuration; it only touches the selection. -/
lemma fetch_files_state (st : AppState) (c : String)
    (f : Repo → Except String (List FileNode)) (rid? : Option String) :
    (handle_fetch_files st c f rid?).2.repos = st.repos ∧
    (handle_fetch_files st c f rid?).2.messages = st.messages ∧
    (handle_fetch_files st c f rid?).2.config = st.config := by
  simp only [handle_fetch_files]
  split
  · exact ⟨rfl, rfl, rfl⟩
  · split
    · exact ⟨rfl, rfl, rfl⟩
    · split <;> exact ⟨rfl, rfl, rfl⟩

/-- Shorthand: the fetch-files handler leaves the repository store. -/
lemma fetch_files_repos (st : AppState) (c : String)
    (f : Repo → Except String (List FileNode)) (rid? : Option String) :
    (handle_fetch_files st c f rid?).2.repos = st.repos :=
  (fetch_files_state st c f rid?).1

/-- The repository store after configuration submission is exactly the
result of the upsert loop; the cascaded fetch never writes to it. -/
lemma submit_config_repos (st : AppState) (c : String)
    (ids : Nat → String) (now : Nat)
    (f : Repo → Except String (List FileNode)) (payload : ConfigPayload) :
    (handle_submit_config st c ids now f payload).2.2.repos =
      (submitReposLoop c ids now st.repos payload.repositories 0).1 := by
  simp only [handle_submit_config]
  split
  · next h0 => simp [List.isEmpty_iff.mp h0, submitReposLoop]
  · split <;> try split
    all_goals simp_all [fetch_files_repos]

/-- When every descriptor name is new for the client and the names are
pairwise distinct, each upsert of the submit loop appends, so the
per-client record count grows by the number of descriptors. -/
lemma submitReposLoop_filter_length (c : String) (ids : Nat → String)
    (now : Nat) :
    ∀ (ds : List RepoData) (store : List Repo) (i : Nat),
    (ds.map (fun d => d.name)).Nodup →
    (∀ d ∈ ds, ∀ x ∈ store, repoKeyMatch c d.name x = false) →
    ((submitReposLoop c ids now store ds i).1.filter
        (fun r => r.client_id == c)).length =
      (store.filter (fun r => r.client_id == c)).length + ds.length := by
  intro ds
  induction ds with
  | nil => intro store i _ _; rfl
  | cons d ds ih =>
    intro store i hnd hnew
    simp only [List.map_cons, List.nodup_cons] at hnd
    have hkey : ∀ x ∈ store, repoKeyMatch c d.name x = false :=
      hnew d (List.mem_cons_self _ _)
    have hup : upsertRepo store (mkRepo c (ids i) now d) =
        store ++ [mkRepo c (ids i) now d] := by
      apply upsertRepo_append
      intro x hx
      exact hkey x hx
    have hnew2 : ∀ d2 ∈ ds, ∀ x ∈ store ++ [mkRepo c (ids i) now d],
        repoKeyMatch c d2.name x = false := by
      intro d2 hd2 x hx
      rcases List.mem_append.mp hx with hx | hx
      · exact hnew d2 (List.mem_cons_of_mem _ hd2) x hx
      · have hx2 : x = mkRepo c (ids i) now d := by simpa using hx
        subst hx2
        have hne : d.name ≠ d2.name := by
          intro hEq
          exact hnd.1 (hEq ▸ List.mem_map_of_mem (fun d => d.name) hd2)
        simp [repoKeyMatch, mkRepo, hne]
    have hstep : (submitReposLoop c ids now store (d :: ds) i).1 =
        (submitReposLoop c ids now (store ++ [mkRepo c (ids i) now d]) ds
          (i + 1)).1 := by
      simp [submitReposLoop, GitHubModel.add_repository, hup]
    rw [hstep, ih _ _ hnd.2 hnew2]
    have hone : ((store ++ [mkRepo c (ids i) now d]).filter
        (fun r => r.client_id == c)).length =
        (store.filter (fun r => r.client_id == c)).length + 1 := by
      simp [List.filter_append, mkRepo]
    rw [hone]
    simp only [List.length_cons]
    omega

/-- C7: persistence upserts on the key (client identifier, display
name).  First conjunct: a configuration submission of descriptors with
pairwise distinct names, on a store holding nothing for the client,
leaves the client with exactly one record per descriptor.  Second
conjunct: two descriptors sharing the name A collapse to a single
record named A carrying the branch of the second descriptor. -/
theorem C7_upsert_semantics :
    (∀ (st : AppState) (c : String) (ids : Nat → String) (now : Nat)
       (fetchTree : Repo → Except String (List FileNode))
       (payload : ConfigPayload),
      (payload.repositories.map (fun d => d.name)).Nodup →
      (∀ x ∈ st.repos, (x.client_id == c) = false) →
      (GitHubModel.get_repositories
          (handle_submit_config st c ids now fetchTree payload).2.2.repos
          c).length = payload.repositories.length) ∧
    (GitHubModel.get_repositories
        (handle_submit_config st0 "c" (fun n => "i" ++ toString n) 7 noTree
          (ConfigPayload.mk "g"
            [{ dataA with branch? := some "b1" },
             { dataA with branch? := some "b2" }])).2.2.repos "c" =
      [[("id", "i1"), ("name", "A"), ("url", "u"), ("host", "github.com"),
        ("owner", "o"), ("repo", "r"), ("branch", "b2"),
        ("client_id", "c"), ("created_at", "7")]]) := by
  constructor
  · intro st c ids now fetchTree payload hnd hempty
    rw [submit_config_repos]
    have hfl : ∀ d ∈ payload.repositories, ∀ x ∈ st.repos,
        repoKeyMatch c d.name x = false := by
      intro d _ x hx
      simp [repoKeyMatch, hempty x hx]
    have hlen := submitReposLoop_filter_length c ids now
      payload.repositories st.repos 0 hnd hfl
    have hzero : (st.repos.filter (fun r => r.client_id == c)).length = 0 := by
      have : st.repos.filter (fun r => r.client_id == c) = [] := by
        rw [List.filter_eq_nil_iff]
        intro x hx
        simp [hempty x hx]
      simp [this]
    simp [GitHubModel.get_repositories, hlen, hzero]
  · decide

/-- Instantiation of the distinct-names conjunct of C7 at two
descriptors named A and B on the empty store. -/
theorem C7_upsert_semantics_witness :
    (GitHubModel.get_repositories
        (handle_submit_config st0 "c" (fun n => "i" ++ toString n) 7 noTree
          (ConfigPayload.mk "g"
            [dataA, { dataA with name := "B" }])).2.2.repos
        "c").length =
      (ConfigPayload.mk "g"
        [dataA, { dataA with name := "B" }]).repositories.length :=
  C7_upsert_semantics.1 st0 "c" (fun n => "i" ++ toString n) 7 noTree
    (ConfigPayload.mk "g" [dataA, { dataA with name := "B" }])
    (by decide) (by decide)

/-! Claim C9: default selection during configuration submission. -/

/-- The upserted record is a member of the store it was upserted
into. -/
lemma mem_upsertRepo_self (store : List Repo) (r : Repo) :
    r ∈ upsertRepo store r := by
  induction store with
  | nil => simp [upsertRepo]
  | cons x xs ih =>
    by_cases h : repoKeyMatch r.client_id r.name x <;>
      simp [upsertRepo, h, ih]

/-- Unfolding of the submit loop store on a cons descriptor list. -/
lemma submitReposLoop_cons_fst (c : String) (ids : Nat → String)
    (now : Nat) (store : List Repo) (d : RepoData) (ds : List RepoData)
    (i : Nat) :
    (submitReposLoop c ids now store (d :: ds) i).1 =
      (submitReposLoop c ids now
        (upsertRepo store (mkRepo c (ids i) now d)) ds (i + 1)).1 := by
  rcases h : submitReposLoop c ids now
      (upsertRepo store (mkRepo c (ids i) now d)) ds (i + 1) with ⟨a, b⟩
  simp [submitReposLoop, GitHubModel.add_repository, h]

/-- A store holding a record of the client keeps holding one through
the rest of the submit loop. -/
lemma submitReposLoop_keeps_client (c : String) (ids : Nat → String)
    (now : Nat) :
    ∀ (ds : List RepoData) (store : List Repo) (i : Nat),
    (∃ x ∈ store, x.client_id = c) →
    ∃ x ∈ (submitReposLoop c ids now store ds i).1, x.client_id = c := by
  intro ds
  induction ds with
  | nil => intro store i h; exact h
  | cons d ds ih =>
    intro store i _
    rw [submitReposLoop_cons_fst]
    exact ih _ _ ⟨mkRepo c (ids i) now d, mem_upsertRepo_self _ _, rfl⟩

/-- A selection already set survives a fetch-files call for its own
identifier, whatever the payload resolution and tree listing do. -/
lemma fetch_files_selected_some (st : AppState) (c : String)
    (f : Repo → Except String (List FileNode)) (rid : String)
    (h : st.selected = some rid) :
    (handle_fetch_files st c f (some rid)).2.selected = some rid := by
  simp only [handle_fetch_files]
  split
  · exact h
  · split
    · exact h
    · split <;> rfl

/-- After a configuration submission with at least one descriptor, the
session selection names the first repository of the client in persisted
order, and such a repository exists. -/
lemma submit_config_selected (st : AppState) (c : String)
    (ids : Nat → String) (now : Nat)
    (f : Repo → Except String (List FileNode)) (payload : ConfigPayload)
    (hne : payload.repositories ≠ []) :
    (handle_submit_config st c ids now f payload).2.2.selected =
      firstRepoId
        (submitReposLoop c ids now st.repos payload.repositories 0).1 c ∧
    firstRepoId
        (submitReposLoop c ids now st.repos payload.repositories 0).1 c ≠
      none := by
  obtain ⟨d, ds, hrep⟩ : ∃ d ds, payload.repositories = d :: ds := by
    cases hrep : payload.repositories with
    | nil => exact absurd hrep hne
    | cons d ds => exact ⟨d, ds, rfl⟩
  have hex : ∃ x ∈ (submitReposLoop c ids now st.repos
      payload.repositories 0).1, x.client_id = c := by
    rw [hrep, submitReposLoop_cons_fst]
    exact submitReposLoop_keeps_client c ids now ds _ 1
      ⟨mkRepo c (ids 0) now d, mem_upsertRepo_self _ _, rfl⟩
  obtain ⟨x, hx, hxc⟩ := hex
  have hxf : x ∈ (submitReposLoop c ids now st.repos
      payload.repositories 0).1.filter (fun r => r.client_id == c) := by
    simp [List.mem_filter, hx, hxc]
  have hflne : (submitReposLoop c ids now st.repos
      payload.repositories 0).1.filter (fun r => r.client_id == c) ≠ [] := by
    intro hnil
    rw [hnil] at hxf
    cases hxf
  obtain ⟨r0, l, hfl⟩ := List.exists_cons_of_ne_nil hflne
  have hhead : (GitHubModel.get_repositories
      (submitReposLoop c ids now st.repos payload.repositories 0).1
      c).head? = some (dictPop r0.toDict "token") := by
    simp [GitHubModel.get_repositories, hfl]
  have hfirst : firstRepoId
      (submitReposLoop c ids now st.repos payload.repositories 0).1 c =
      some r0.id := by
    simp [firstRepoId, hfl]
  have hemp : payload.repositories.isEmpty = false := by
    simp [hrep]
  refine ⟨?_, by simp [hfirst]⟩
  rw [hfirst]
  rcases hsl : submitReposLoop c ids now st.repos payload.repositories 0
    with ⟨repos1, calls⟩
  rw [hsl] at hhead
  simp only [handle_submit_config, hemp, Bool.false_eq_true, if_false,
    hsl, hhead, dictGet_pop_id]
  split
  · rfl
  · exact fetch_files_selected_some _ _ _ _ rfl

/-- C9 is false as stated: with two repositories persisted and the
second one selected, submitting a configuration carrying one new
descriptor re-selects the first repository, overwriting the previous
selection even though one existed. -/
theorem C9_counterexample :
    selInv "c" stAB = true ∧ stAB.selected = some "id2" ∧
    (handle_submit_config stAB "c" (fun n => "i" ++ toString n) 7 noTree
        payC).2.2.selected = some "id1" ∧
    some "id1" ≠ some "id2" :=
  ⟨rfl, rfl, by decide, by decide⟩

/-- C9 amended: configuration submission leaves the selection alone
when the payload carries no repository descriptor, but with at least
one descriptor it always selects the first repository of the client in
persisted order (cascading a file-tree fetch for it), overwriting any
pre-existing selection. -/
theorem C9_amended_submit_selects_first (st : AppState) (c : String)
    (ids : Nat → String) (now : Nat)
    (f : Repo → Except String (List FileNode)) (payload : ConfigPayload) :
    (payload.repositories = [] →
      (handle_submit_config st c ids now f payload).2.2.selected =
        st.selected) ∧
    (payload.repositories ≠ [] →
      (handle_submit_config st c ids now f payload).2.2.selected =
        firstRepoId
          (submitReposLoop c ids now st.repos payload.repositories 0).1 c ∧
      firstRepoId
          (submitReposLoop c ids now st.repos payload.repositories 0).1 c ≠
        none) := by
  constructor
  · intro h0
    simp [handle_submit_config, h0]
  · exact fun hne => submit_config_selected st c ids now f payload hne

/-- Instantiation of the amended C9 theorem: a configuration carrying
one descriptor, submitted over a pre-existing selection, selects the
first persisted repository. -/
theorem C9_amended_submit_selects_first_witness :
    (handle_submit_config stAB "c" (fun n => "i" ++ toString n) 7 noTree
        payC).2.2.selected =
      firstRepoId
        (submitReposLoop "c" (fun n => "i" ++ toString n) 7 stAB.repos
          payC.repositories 0).1 "c" ∧
    firstRepoId
        (submitReposLoop "c" (fun n => "i" ++ toString n) 7 stAB.repos
          payC.repositories 0).1 "c" ≠ none :=
  (C9_amended_submit_selects_first stAB "c" (fun n => "i" ++ toString n) 7
      noTree payC).2 (by decide)

/-! Claim C8: no outbound event carries the credential field. -/

/-- Popping the token key yields a dict with no token key. -/
lemma dictTokenFree_pop (d : Dict) :
    dictTokenFree (dictPop d "token") = true := by
  simp only [dictTokenFree, dictPop, List.all_eq_true]
  intro kv hkv
  exact (List.mem_filter.mp hkv).2

/-- Every dict of a repository listing is credential free. -/
lemma getRepos_tokenFree (store : List Repo) (c : String) :
    (GitHubModel.get_repositories store c).all dictTokenFree = true := by
  simp only [GitHubModel.get_repositories, List.all_eq_true]
  intro d hd
  obtain ⟨r, _, rfl⟩ := List.mem_map.mp hd
  exact dictTokenFree_pop _

/-- The sanitized file-tree metadata dict is credential free. -/
lemma fileTreeRepoDict_tokenFree (r : Repo) :
    dictTokenFree (fileTreeRepoDict r) = true := rfl

/-- Every event of a fetch-files call is credential free. -/
lemma fetch_files_tokenFree (st : AppState) (c : String)
    (f : Repo → Except String (List FileNode)) (rid? : Option String) :
    (handle_fetch_files st c f rid?).1.all eventTokenFree = true := by
  simp only [handle_fetch_files]
  split
  · rfl
  · split
    · rfl
    · split <;> simp [eventTokenFree, fileTreeRepoDict_tokenFree]

/-- Every event of a chat-message call is credential free. -/
lemma chat_tokenFree (st : AppState) (c : String) (envU envA : MsgEnv)
    (ai : Except String String) (text : String) :
    (handle_chat_message st c envU envA ai text).1.all eventTokenFree
      = true := by
  simp only [handle_chat_message]
  split
  · rfl
  · cases ai <;> simp [eventTokenFree]

/-- Every event of a select-repository call is credential free. -/
lemma select_tokenFree (st : AppState) (c : String)
    (rid? : Option String) :
    (handle_select_repository st c rid?).1.all eventTokenFree = true := by
  simp only [handle_select_repository]
  split <;> rfl

/-- Every event of an add-repository call is credential free. -/
lemma add_repo_tokenFree (st : AppState) (c : String)
    (validate : RepoData → Bool) (freshId : String) (now : Nat)
    (f : Repo → Except String (List FileNode))
    (repository? : Option RepoData) :
    (handle_add_repository st c validate freshId now f
        repository?).1.all eventTokenFree = true := by
  cases repository? with
  | none => rfl
  | some d =>
    simp only [handle_add_repository, GitHubModel.add_repository]
    split
    · split <;>
        simp [eventTokenFree, dictTokenFree_pop, getRepos_tokenFree,
          fetch_files_tokenFree, List.all_append]
    · rfl

/-- Every event of an update-repository call is credential free. -/
lemma update_repo_tokenFree (st : AppState) (c : String)
    (validate : RepoData → Bool) (freshId : String) (now : Nat)
    (f : Repo → Except String (List FileNode))
    (rid? : Option String) (repository? : Option RepoData) :
    (handle_update_repository st c validate freshId now f rid?
        repository?).1.all eventTokenFree = true := by
  cases repository? with
  | none => rfl
  | some d =>
    simp only [handle_update_repository, GitHubModel.add_repository]
    split
    · rfl
    · split
      · split <;>
          simp [eventTokenFree, dictTokenFree_pop, getRepos_tokenFree,
            fetch_files_tokenFree, List.all_append]
      · rfl

/-- Every event of a delete-repository call is credential free. -/
lemma delete_repo_tokenFree (st : AppState) (c : String)
    (f : Repo → Except String (List FileNode)) (rid? : Option String) :
    (handle_delete_repository st c f rid?).1.all eventTokenFree = true := by
  simp only [handle_delete_repository, GitHubModel.delete_repository]
  split
  · rfl
  · split
    · rfl
    · split
      · split <;>
          simp [eventTokenFree, getRepos_tokenFree,
            fetch_files_tokenFree, List.all_append]
      · simp [eventTokenFree, getRepos_tokenFree, List.all_append]

/-- Every event of a configuration submission is credential free. -/
lemma submit_tokenFree (st : AppState) (c : String) (ids : Nat → String)
    (now : Nat) (f : Repo → Except String (List FileNode))
    (payload : ConfigPayload) :
    (handle_submit_config st c ids now f payload).1.all eventTokenFree
      = true := by
  simp only [handle_submit_config]
  split
  · rfl
  · split
    · simp [eventTokenFree, getRepos_tokenFree]
    · split <;>
        simp [eventTokenFree, getRepos_tokenFree,
          fetch_files_tokenFree, List.all_append]

/-- Every event of one dispatched frame is credential free. -/
lemma step_tokenFree (c : String) (o : Oracles) (st : AppState)
    (req : Req) :
    (step c o st req).1.all eventTokenFree = true := by
  cases req with
  | submitConfig payload => exact submit_tokenFree st c o.freshIds o.now o.fetchTree payload
  | addRepo repository? =>
    exact add_repo_tokenFree st c o.validate (o.freshIds 0) o.now o.fetchTree repository?
  | updateRepo rid? repository? =>
    exact update_repo_tokenFree st c o.validate (o.freshIds 0) o.now o.fetchTree rid? repository?
  | deleteRepo rid? => exact delete_repo_tokenFree st c o.fetchTree rid?
  | selectRepo rid? => exact select_tokenFree st c rid?
  | fetchFiles rid? => exact fetch_files_tokenFree st c o.fetchTree rid?
  | chat text => exact chat_tokenFree st c o.envU o.envA o.ai text

/-- C8: over every sequence of configuration, repository, fetch and
chat frames, no outbound event delivered to the client carries the
credential (token) field: repository listings, repository action
success payloads and file-tree metadata are all sanitized. -/
theorem C8_no_credential_in_events (c : String) (st : AppState)
    (frames : List (Oracles × Req)) :
    (runSeq c st frames).1.all eventTokenFree = true := by
  induction frames generalizing st with
  | nil => rfl
  | cons p rest ih =>
    obtain ⟨o, req⟩ := p
    rcases h : step c o st req with ⟨evs, st1⟩
    rcases h2 : runSeq c st1 rest with ⟨evs2, st2⟩
    have ha := step_tokenFree c o st req
    rw [h] at ha
    have hb := ih st1
    rw [h2] at hb
    simp only [runSeq, h, h2, List.all_append]
    simp [ha, hb]

/-! Claim C5: the selected-repository invariant. -/

/-- An element not matched by the predicate survives delete_one. -/
lemma eraseFirstP_mem (p : Repo → Bool) (l : List Repo) (x : Repo)
    (hx : x ∈ l) (hpx : p x = false) : x ∈ eraseFirstP p l := by
  induction l with
  | nil => cases hx
  | cons y ys ih =>
    by_cases hy : p y
    · rcases List.mem_cons.mp hx with rfl | hmem
      · rw [hpx] at hy; cases hy
      · simpa [eraseFirstP, hy] using hmem
    · rcases List.mem_cons.mp hx with rfl | hmem
      · simp [eraseFirstP, hy]
      · simp [eraseFirstP, hy, ih hmem]

/-- The head of a repository listing is the sanitized dict of a stored
record of the client. -/
lemma get_repositories_head (store : List Repo) (c : String)
    (first : Dict)
    (hhead : (GitHubModel.get_repositories store c).head? = some first) :
    ∃ r0 ∈ store, (r0.client_id == c) = true ∧
      first = dictPop r0.toDict "token" := by
  rcases hfl : store.filter (fun r => r.client_id == c) with _ | ⟨r0, l⟩
  · rw [GitHubModel.get_repositories, hfl] at hhead
    cases hhead
  · rw [GitHubModel.get_repositories, hfl] at hhead
    simp only [List.map_cons, List.head?_cons, Option.some.injEq] at hhead
    have hr0 : r0 ∈ store.filter (fun r => r.client_id == c) := by
      rw [hfl]; exact List.mem_cons_self _ _
    have hm := List.mem_filter.mp hr0
    exact ⟨r0, hm.1, hm.2, hhead.symm⟩

/-- The first repository identifier of a client names one of the
stored records of the client. -/
lemma firstRepoId_spec (store : List Repo) (c sid : String)
    (h : firstRepoId store c = some sid) :
    ∃ r0 ∈ store, (r0.client_id == c) = true ∧ r0.id = sid := by
  rcases hfl : store.filter (fun r => r.client_id == c) with _ | ⟨r0, l⟩
  · rw [firstRepoId, hfl] at h
    cases h
  · rw [firstRepoId, hfl] at h
    simp at h
    have hr0 : r0 ∈ store.filter (fun r => r.client_id == c) := by
      rw [hfl]; exact List.mem_cons_self _ _
    have hm := List.mem_filter.mp hr0
    exact ⟨r0, hm.1, hm.2, h⟩

/-- The fetch-files handler preserves the selection invariant: it only
moves the selection onto an identifier it has just resolved. -/
lemma fetch_files_selInv (st : AppState) (c : String)
    (f : Repo → Except String (List FileNode)) (rid? : Option String)
    (h : selInv c st = true) :
    selInv c (handle_fetch_files st c f rid?).2 = true := by
  simp only [handle_fetch_files]
  split
  · exact h
  · split
    · exact h
    · next repo heq =>
      have hmem := List.mem_of_find?_eq_some heq
      have hpred := List.find?_some heq
      have hinv : selInv c { st with selected := some (rid?.getD "") }
          = true := by
        simp only [selInv]
        exact List.any_eq_true.mpr ⟨repo, hmem, by simpa using hpred⟩
      split <;> exact hinv

/-- The select-repository handler trivially preserves the selection
invariant: it never changes the state. -/
lemma select_selInv (st : AppState) (c : String) (rid? : Option String)
    (h : selInv c st = true) :
    selInv c (handle_select_repository st c rid?).2 = true := by
  simp only [handle_select_repository]
  split <;> exact h

/-- The delete-repository handler preserves the selection invariant:
deleting an unselected record leaves the selected one in place, and
deleting the selected record re-selects the first remaining repository
or clears the selection. -/
lemma delete_selInv (st : AppState) (c : String)
    (f : Repo → Except String (List FileNode)) (rid? : Option String)
    (h : selInv c st = true) :
    selInv c (handle_delete_repository st c f rid?).2 = true := by
  simp only [handle_delete_repository, GitHubModel.delete_repository]
  split
  · exact h
  · split
    · exact h
    · split
      · split
        · next first heq =>
          obtain ⟨r0, hr0mem, hr0c, hfirst⟩ :=
            get_repositories_head _ _ _ heq
          apply fetch_files_selInv
          subst hfirst
          rw [dictGet_pop_id]
          simp only [selInv]
          exact List.any_eq_true.mpr ⟨r0, hr0mem, by simp [hr0c]⟩
        · simp [selInv]
      · next hnesel =>
        cases hsel : st.selected with
        | none => simp [selInv, hsel]
        | some s =>
          have hs : s ≠ rid?.getD "" := by
            intro hEq
            exact hnesel (by simpa [hsel] using congrArg some hEq)
          simp only [selInv, hsel] at h
          obtain ⟨r, hr, hpred⟩ := List.any_eq_true.mp h
          have hrc : (r.client_id == c) = true := by
            have := hpred
            simp only [Bool.and_eq_true] at this
            exact this.1
          have hrid : r.id = s := by
            have := hpred
            simp only [Bool.and_eq_true, beq_iff_eq] at this
            exact this.2
          have hnp : (fun x => x.client_id == c && x.id == rid?.getD "")
              r = false := by
            simp only [Bool.and_eq_false_iff]  -- name risk
            right
            simp [hrid, hs]
          simp only [selInv, hsel]
          exact List.any_eq_true.mpr
            ⟨r, eraseFirstP_mem _ _ _ hr hnp, by simp [hrc, hrid]⟩

/-- The configuration-submission handler preserves the selection
invariant: with no descriptors in the payload the selection is left
alone, with descriptors it re-selects the first persisted repository
of the client. -/
lemma submit_selInv (st : AppState) (c : String) (ids : Nat → String)
    (now : Nat) (f : Repo → Except String (List FileNode))
    (payload : ConfigPayload) (h : selInv c st = true) :
    selInv c (handle_submit_config st c ids now f payload).2.2 = true := by
  by_cases hne : payload.repositories = []
  · have hst : (handle_submit_config st c ids now f payload).2.2 =
        { st with config := some payload } := by
      simp [handle_submit_config, hne]
    rw [hst]
    cases hsel : st.selected with
    | none => simp [selInv, hsel]
    | some s =>
      simp only [selInv, hsel] at h ⊢
      exact h
  · obtain ⟨hsel', hfr⟩ := submit_config_selected st c ids now f payload hne
    obtain ⟨sid, hsid⟩ := Option.ne_none_iff_exists'.mp hfr
    obtain ⟨r0, hr0, hr0c, hr0id⟩ := firstRepoId_spec _ _ _ hsid
    have hrepos := submit_config_repos st c ids now f payload
    simp only [selInv, hsel'.trans hsid, hrepos]
    exact List.any_eq_true.mpr ⟨r0, hr0, by simp [hr0c, hr0id]⟩

/-- C5 is false as stated: in a state satisfying the invariant, an
add-repository request reusing the stored display name A with a fresh
identifier replaces the record (its id becomes the fresh one) while
the session selection keeps the old id, which then names no existing
record. -/
theorem C5_counterexample :
    selInv "c" stA = true ∧
    selInv "c" (handle_add_repository stA "c" (fun _ => true) "id9" 7
      noTree (some dataA)).2.2 = false :=
  ⟨rfl, by decide⟩

/-- C5 amended: the selection invariant (the selected-repository
reference is empty or names an existing record of the client) is
preserved by configuration submission, delete repository, select
repository and fetch file tree; the add-repository and
update-repository handlers can break it when an upserted descriptor
reuses an existing display name under a fresh identifier. -/
theorem C5_amended_selection_invariant (c : String) (o : Oracles)
    (st : AppState) (h : selInv c st = true) :
    (∀ payload,
      selInv c (step c o st (Req.submitConfig payload)).2 = true) ∧
    (∀ rid?, selInv c (step c o st (Req.deleteRepo rid?)).2 = true) ∧
    (∀ rid?, selInv c (step c o st (Req.selectRepo rid?)).2 = true) ∧
    (∀ rid?, selInv c (step c o st (Req.fetchFiles rid?)).2 = true) :=
  ⟨fun payload => submit_selInv st c o.freshIds o.now o.fetchTree payload h,
   fun rid? => delete_selInv st c o.fetchTree rid? h,
   fun rid? => select_selInv st c rid? h,
   fun rid? => fetch_files_selInv st c o.fetchTree rid? h⟩

/-- Instantiation of the amended C5 theorem: a delete of the selected
repository on a concrete two-repository state keeps the invariant. -/
theorem C5_amended_selection_invariant_witness :
    selInv "c" (step "c" oracle0 stAB (Req.deleteRepo (some "id2"))).2
      = true :=
  (C5_amended_selection_invariant "c" oracle0 stAB (by decide)).2.1
    (some "id2")

/-- Instantiation of C10 with failing inserts on a concrete state. -/
theorem C10_persist_failure_invisible_witness :
    ((MongoDB.add_message [] envFail "c" "user" "hi").1.sender = "user" ∧
     (MongoDB.add_message [] envFail "c" "user" "hi").1.text = "hi" ∧
     (MongoDB.add_message [] envFail "c" "user" "hi").1.client_id = "c") ∧
    (envFail.insertOk = false →
      (MongoDB.add_message [] envFail "c" "user" "hi").2 = []) ∧
    ((handle_chat_message stA "c" envFail envFail (Except.ok "resp")
        "hi").1 =
       [Event.agentTyping true, Event.agentTyping false,
        Event.newChatMessage (addMessageRecord envFail "c" "agent" "resp")] ∧
     (handle_chat_message stA "c" envFail envFail (Except.ok "resp")
        "hi").2.messages = stA.messages) :=
  C10_persist_failure_invisible [] envFail "c" "user" "hi" stA envFail
    envFail "resp" "hi" (by decide) (by decide) (by decide)

end ChatApp
